import Mathlib

/-!
Verification of the training/validation loop of `deep-learning-nanodegree`.

Shallow embedding of the training/validation loops found in
`intro-to-pytorch/Part 5 - Inference and Validation (Exercises).ipynb`
(cells 9 and 12) and the solution training loop of
`intro-to-pytorch/Part 3 - Training Neural Networks (Exercises).ipynb`.

Conventions of the embedding:
* Python floats are modelled as exact rationals (`ℚ`).
* The external collaborators (model forward pass, loss function,
  gradient computation, optimizer update) are opaque parameters
  bundled in a `LoopCfg`; the loop logic itself is translated
  statement by statement from the notebook cells.
* `torch.exp` followed by `topk(1, dim=1)` is modelled by `argmaxIdx`
  (index of the first maximum); the theorem about `Real.exp` below
  proves that exponentiation does not change the arg-max index.
-/

namespace DLNano

/-! ## Arg-max over a list: model of `ps.topk(1, dim=1)` row indices -/

/-- Maximum of `x` and all elements of `l` (left fold with `max`). -/
def listMax {α : Type} [LinearOrder α] (x : α) (l : List α) : α :=
  l.foldl max x

/-- Index of the first maximal element of a list (`0` on the empty list).
Models the index returned by `ps.topk(1, dim=1)` for one row. -/
def argmaxIdx {α : Type} [LinearOrder α] : List α → ℕ
  | [] => 0
  | x :: xs => if listMax x xs ≤ x then 0 else argmaxIdx xs + 1

theorem listMax_map {α β : Type} [LinearOrder α] [LinearOrder β]
    {f : α → β} (hf : Monotone f) (x : α) (l : List α) :
    listMax (f x) (l.map f) = f (listMax x l) := by
  induction l generalizing x with
  | nil => rfl
  | cons y ys ih =>
    simp only [List.map_cons, listMax, List.foldl_cons]
    rw [← hf.map_max]
    exact ih (max x y)

theorem argmaxIdx_map {α β : Type} [LinearOrder α] [LinearOrder β]
    {f : α → β} (hf : StrictMono f) (l : List α) :
    argmaxIdx (l.map f) = argmaxIdx l := by
  induction l with
  | nil => rfl
  | cons x xs ih =>
    simp only [List.map_cons, argmaxIdx]
    simp only [listMax_map hf.monotone, hf.le_iff_le, ih]

/-! ## Per-batch accuracy: model of cell 9/12's
`ps = torch.exp(log_ps); _, top_class = ps.topk(1, dim=1);`
`equals = top_class == labels.view(*top_class.shape);`
`accuracy += torch.mean(equals.type(torch.FloatTensor))` -/

/-- Predicted class per example: arg-max of each row of scores.
(`topk(1)` on the exponentiated log-probabilities; by `argmaxIdx_map`
applied to `Real.exp`, exponentiation does not change the index.) -/
def topClasses (logps : List (List ℚ)) : List ℕ :=
  logps.map argmaxIdx

/-- Number of positions where prediction and label agree. -/
def matchCount (preds labels : List ℕ) : ℕ :=
  ((preds.zip labels).filter (fun p => p.1 == p.2)).length

/-- Mean of the `equals` indicator over the batch:
(number of arg-max matches) / (batch size). -/
def batchAccuracy (logps : List (List ℚ)) (labels : List ℕ) : ℚ :=
  (matchCount (topClasses logps) labels : ℚ) / (logps.length : ℚ)

/-! ## The training/validation loop (Part 5, cells 9 and 12; Part 3 solution cell)

The loop is embedded parametrically over the external collaborators:
parameter collection `P`, gradient-accumulator collection `G`, the model's
forward pass, the loss criterion (`nn.NLLLoss()`), the gradient of one
batch's loss (`loss.backward()` adds it to the accumulators), and the
optimizer update (`optimizer.step()`). -/

/-- One mini-batch `(images, labels)` as yielded by a data loader. -/
structure Batch where
  images : List (List ℚ)
  labels : List ℕ
deriving DecidableEq

/-- The training/evaluation mode flag of an `nn.Module`
(toggled by `model.train()` / `model.eval()`). -/
inductive Mode
  | train
  | eval
deriving DecidableEq

/-- Which loop a forward pass belongs to. -/
inductive Phase
  | train
  | validation
deriving DecidableEq

/-- One forward pass of the model, with the mode flag it ran under.
For the dropout classifier of cell 11/12, `mode = Mode.train` means the
stochastic unit-dropping regularization is active. -/
structure ForwardEvent where
  phase : Phase
  mode : Mode
deriving DecidableEq

/-- The mutable state owned by the framework objects: the model's
parameters, the gradient accumulators (`.grad`), and the mode flag. -/
structure TorchState (P G : Type) where
  params : P
  grads : G
  mode : Mode

/-- External collaborators of the loop. -/
structure LoopCfg (P G : Type) where
  /-- The forward pass `model(images)`: log-probabilities per example (`log_softmax` output). -/
  forward : P → List (List ℚ) → List (List ℚ)
  /-- The scalar loss `criterion(log_ps, labels)` (`nn.NLLLoss()`). -/
  criterion : List (List ℚ) → List ℕ → ℚ
  /-- Gradient of `criterion (forward p b.images) b.labels` with respect
  to the parameters, as computed by `loss.backward()`. -/
  gradOf : P → Batch → G
  /-- Gradients are additive across `backward` calls. -/
  addG : G → G → G
  /-- The value `optimizer.zero_grad()` resets the accumulators to. -/
  zeroG : G
  /-- The update `optimizer.step()` applies to the parameters from the
  currently accumulated gradients. -/
  stepOpt : P → G → P

/-- One iteration of `for images, labels in trainloader:` (cells 9/12 of
Part 5 and the Part 3 solution cell share this statement order):
`optimizer.zero_grad()`; `log_ps = model(images)`;
`loss = criterion(log_ps, labels)`; `loss.backward()`;
`optimizer.step()`.  Returns the new state and `loss.item()`. -/
def trainStep {P G : Type} (cfg : LoopCfg P G) (s : TorchState P G)
    (b : Batch) : TorchState P G × ℚ :=
  let g0 := cfg.zeroG
  let logps := cfg.forward s.params b.images
  let loss := cfg.criterion logps b.labels
  let g1 := cfg.addG g0 (cfg.gradOf s.params b)
  let p1 := cfg.stepOpt s.params g1
  (⟨p1, g1, s.mode⟩, loss)

/-- The training pass of one epoch: fold `trainStep` over the batches,
accumulating `running_loss += loss.item()` and recording each forward
pass with the mode it ran under. -/
def trainPass {P G : Type} (cfg : LoopCfg P G) (s : TorchState P G)
    (rl : ℚ) : List Batch → TorchState P G × ℚ × List ForwardEvent
  | [] => (s, rl, [])
  | b :: bs =>
    let st := trainStep cfg s b
    let rest := trainPass cfg st.1 (rl + st.2) bs
    (rest.1, rest.2.1, ⟨Phase.train, s.mode⟩ :: rest.2.2)

/-- One iteration of the validation loop (inside `with torch.no_grad():`):
`log_ps = model(images)`; `test_loss += criterion(log_ps, labels)`;
`ps = torch.exp(log_ps)`; `_, top_class = ps.topk(1, dim=1)`;
`equals = top_class == labels.view(*top_class.shape)`;
`accuracy += torch.mean(equals.type(torch.FloatTensor))`.
No statement in the body touches the parameters, the gradient
accumulators, or the mode flag, so the framework state is returned
unchanged. -/
def valStep {P G : Type} (cfg : LoopCfg P G) (s : TorchState P G)
    (a : ℚ × ℚ) (b : Batch) : TorchState P G × (ℚ × ℚ) :=
  let logps := cfg.forward s.params b.images
  let tl := a.1 + cfg.criterion logps b.labels
  let ac := a.2 + batchAccuracy logps b.labels
  (s, (tl, ac))

/-- The validation pass of one epoch: fold `valStep` over the test
batches, recording each forward pass with the mode it ran under. -/
def valPass {P G : Type} (cfg : LoopCfg P G) (s : TorchState P G)
    (a : ℚ × ℚ) : List Batch → TorchState P G × (ℚ × ℚ) × List ForwardEvent
  | [] => (s, a, [])
  | b :: bs =>
    let st := valStep cfg s a b
    let rest := valPass cfg st.1 st.2 bs
    (rest.1, rest.2.1, ⟨Phase.validation, s.mode⟩ :: rest.2.2)

/-- The three metrics printed per epoch. -/
structure EpochReport where
  trainLoss : ℚ
  testLoss : ℚ
  testAcc : ℚ
deriving DecidableEq

/-- One epoch of cell 9/12: `running_loss = 0` and the training loop,
then `test_loss = 0; accuracy = 0` and the validation loop under
`torch.no_grad()`, then the reported metrics
`running_loss/len(trainloader)`, `test_loss/len(testloader)`,
`accuracy/len(testloader)`. -/
def runEpoch {P G : Type} (cfg : LoopCfg P G) (s : TorchState P G)
    (tB vB : List Batch) : TorchState P G × EpochReport × List ForwardEvent :=
  let t := trainPass cfg s 0 tB
  let v := valPass cfg t.1 (0, 0) vB
  (v.1, ⟨t.2.1 / (tB.length : ℚ), v.2.1.1 / (vB.length : ℚ),
    v.2.1.2 / (vB.length : ℚ)⟩, t.2.2 ++ v.2.2)

/-! ## The per-epoch report line

Cell 9/12 prints
`print("Epoch: {}/{}.. ".format(e+1, epochs), "Training Loss: {:.3f}.. ".format(...), "Test Loss: {:.3f}.. ".format(...), "Test Accuracy: {:.3f}".format(...))`;
`print` joins its arguments with a single space.  `"{:.3f}"` renders a
float with exactly three digits after the decimal point, rounding the
value to a multiple of `1/1000` with ties going to an even multiple. -/

/-- Round to the nearest integer, ties to the even integer
(the rounding used by Python's fixed-point float formatting). -/
def roundHalfEven (q : ℚ) : ℤ :=
  let f := ⌊q⌋
  if q - f < 1/2 then f
  else if (1 : ℚ)/2 < q - f then f + 1
  else if f % 2 = 0 then f else f + 1

/-- The natural number `k < 1000` as exactly three decimal digits. -/
def pad3 (k : ℕ) : String :=
  ⟨[Nat.digitChar (k / 100 % 10), Nat.digitChar (k / 10 % 10),
    Nat.digitChar (k % 10)]⟩

/-- Model of `"{:.3f}".format(q)`. -/
def pyFormatFixed3 (q : ℚ) : String :=
  let n := roundHalfEven (q * 1000)
  if n < 0 then
    "-" ++ Nat.repr ((-n).toNat / 1000) ++ "." ++ pad3 ((-n).toNat % 1000)
  else
    Nat.repr (n.toNat / 1000) ++ "." ++ pad3 (n.toNat % 1000)

/-- The line printed at the end of one epoch of cell 9/12 (the four
`print` arguments joined by single spaces). -/
def epochLine (e epochs : ℕ) (r : EpochReport) : String :=
  "Epoch: " ++ toString (e + 1) ++ "/" ++ toString epochs ++ ".. " ++ " " ++
  "Training Loss: " ++ pyFormatFixed3 r.trainLoss ++ ".. " ++ " " ++
  "Test Loss: " ++ pyFormatFixed3 r.testLoss ++ ".. " ++ " " ++
  "Test Accuracy: " ++ pyFormatFixed3 r.testAcc

/-- The line printed at the end of one epoch of the Part 3 solution cell:
`print(f"Training loss: {running_loss/len(trainloader)}")`.  The f-string
interpolates the float with full precision; its rendering is the
argument `t`. -/
def part3Line (t : String) : String :=
  "Training loss: " ++ t

/-- The whole loop `for e in range(epochs):` of cell 9/12, entered with
loop counter `e` and `n` iterations remaining: returns the final
framework state, the printed lines, and the trace of forward passes.
The data loaders restart each epoch (their shuffling is external to the
loop, so the batch lists are fixed here). -/
def loopFrom {P G : Type} (cfg : LoopCfg P G) (tB vB : List Batch)
    (epochs : ℕ) (s : TorchState P G) (e : ℕ) :
    ℕ → TorchState P G × List String × List ForwardEvent
  | 0 => (s, [], [])
  | n + 1 =>
    let r := runEpoch cfg s tB vB
    let rest := loopFrom cfg tB vB epochs r.1 (e + 1) n
    (rest.1, epochLine e epochs r.2.1 :: rest.2.1, r.2.2 ++ rest.2.2)

/-- The initial framework state of cell 9/12: a freshly constructed
model (`nn.Module` initializes in training mode, and no statement of the
cell ever calls `model.eval()` or `model.train()`), with empty gradient
accumulators. -/
def initState {P G : Type} (cfg : LoopCfg P G) (p : P) : TorchState P G :=
  ⟨p, cfg.zeroG, Mode.train⟩

/-- The full run of cell 9 (and, with the dropout classifier of cell 11,
of cell 12): `for e in range(epochs)` over the loop body. -/
def runLoop {P G : Type} (cfg : LoopCfg P G) (s : TorchState P G)
    (tB vB : List Batch) (epochs : ℕ) :
    TorchState P G × List String × List ForwardEvent :=
  loopFrom cfg tB vB epochs s 0 epochs

/-! ## Per-batch metric lists (for relating the accumulators to sums) -/

/-- The per-batch training losses of one epoch, each computed at the
parameters current when its batch is processed. -/
def trainPassLosses {P G : Type} (cfg : LoopCfg P G) (s : TorchState P G) :
    List Batch → List ℚ
  | [] => []
  | b :: bs =>
    (trainStep cfg s b).2 :: trainPassLosses cfg (trainStep cfg s b).1 bs

/-- The per-batch validation losses, all computed at the same
parameters `p` (the validation pass never changes them). -/
def valLosses {P G : Type} (cfg : LoopCfg P G) (p : P)
    (vB : List Batch) : List ℚ :=
  vB.map fun b => cfg.criterion (cfg.forward p b.images) b.labels

/-- The per-batch validation accuracies at parameters `p`. -/
def valAccs {P G : Type} (cfg : LoopCfg P G) (p : P)
    (vB : List Batch) : List ℚ :=
  vB.map fun b => batchAccuracy (cfg.forward p b.images) b.labels

/-! ## The reporting surface described by the specification -/

/-- A numeric field formatted to three decimal places: an integer part,
a point, and exactly three decimal digits. -/
def threeDecimals (s : String) : Prop :=
  ∃ ip fp, s = ip ++ "." ++ fp ∧ fp.length = 3 ∧ ∀ c ∈ fp.data, c.isDigit

/-- The report-line shape stated in the specification:
`Epoch: <e>/<E>..  Training Loss: <f>..  Test Loss: <f>..  Test Accuracy: <f>`
with all three metric fields formatted to three decimal places. -/
def isReportLine (s : String) : Prop :=
  ∃ a b f1 f2 f3 : String,
    s = "Epoch: " ++ a ++ "/" ++ b ++ "..  Training Loss: " ++ f1 ++
      "..  Test Loss: " ++ f2 ++ "..  Test Accuracy: " ++ f3 ∧
    threeDecimals f1 ∧ threeDecimals f2 ∧ threeDecimals f3

/-! ## Helper lemmas about the loop -/

/-- The validation pass returns the framework state it was given:
no step of its body writes parameters, gradients, or mode. -/
theorem valPass_state_eq {P G : Type} (cfg : LoopCfg P G)
    (s : TorchState P G) (a : ℚ × ℚ) (vB : List Batch) :
    (valPass cfg s a vB).1 = s := by
  induction vB generalizing a with
  | nil => rfl
  | cons b bs ih => simpa [valPass, valStep] using ih _

/-- The accumulated running loss of the training pass is the initial
value plus the sum of the per-batch losses. -/
theorem trainPass_runningLoss {P G : Type} (cfg : LoopCfg P G)
    (s : TorchState P G) (rl : ℚ) (tB : List Batch) :
    (trainPass cfg s rl tB).2.1 = rl + (trainPassLosses cfg s tB).sum := by
  induction tB generalizing s rl with
  | nil => simp [trainPass, trainPassLosses]
  | cons b bs ih =>
    simp only [trainPass, trainPassLosses, List.sum_cons]
    rw [ih]
    ring

/-- The validation accumulators after the pass are the initial values
plus the sums of the per-batch losses and accuracies (all computed at
the unchanging parameters). -/
theorem valPass_accumulators {P G : Type} (cfg : LoopCfg P G)
    (s : TorchState P G) (a : ℚ × ℚ) (vB : List Batch) :
    (valPass cfg s a vB).2.1 =
      (a.1 + (valLosses cfg s.params vB).sum,
       a.2 + (valAccs cfg s.params vB).sum) := by
  induction vB generalizing a with
  | nil => simp [valPass, valLosses, valAccs]
  | cons b bs ih =>
    simp only [valPass, valStep]
    rw [ih]
    simp only [valLosses, valAccs, List.map_cons, List.sum_cons,
      Prod.mk.injEq]
    constructor <;> dsimp only <;> ring

/-- Every line produced by the loop is an `epochLine` carrying a
one-based epoch number: the `i`-th line (zero-based) of the run entered
at loop counter `e` is `epochLine (e + i) epochs r` for some report. -/
theorem loopFrom_line {P G : Type} (cfg : LoopCfg P G) (tB vB : List Batch)
    (epochs : ℕ) (n : ℕ) (s : TorchState P G) (e i : ℕ) (h : i < n) :
    ∃ r, ((loopFrom cfg tB vB epochs s e n).2.1).getD i "" =
      epochLine (e + i) epochs r := by
  induction n generalizing s e i with
  | zero => exact absurd h (Nat.not_lt_zero i)
  | succ m ih =>
    cases i with
    | zero => exact ⟨(runEpoch cfg s tB vB).2.1, by simp [loopFrom]⟩
    | succ j =>
      obtain ⟨r, hr⟩ := ih (runEpoch cfg s tB vB).1 (e + 1) j
        (Nat.lt_of_succ_lt_succ h)
      refine ⟨r, ?_⟩
      simpa [loopFrom, Nat.add_comm, Nat.add_assoc, Nat.add_left_comm]
        using hr

/-- The loop prints exactly one line per epoch. -/
theorem loopFrom_length {P G : Type} (cfg : LoopCfg P G) (tB vB : List Batch)
    (epochs : ℕ) (n : ℕ) (s : TorchState P G) (e : ℕ) :
    ((loopFrom cfg tB vB epochs s e n).2.1).length = n := by
  induction n generalizing s e with
  | zero => rfl
  | succ m ih => simp [loopFrom, ih]

/-! ## Helper lemmas about the report-line format -/

theorem string_append_assoc (a b c : String) :
    a ++ b ++ c = a ++ (b ++ c) :=
  String.ext (by simp [String.data_append, List.append_assoc])

theorem roundHalfEven_nonneg {q : ℚ} (h : 0 ≤ q) :
    0 ≤ roundHalfEven q := by
  have hf : (0 : ℤ) ≤ ⌊q⌋ := Int.floor_nonneg.mpr h
  unfold roundHalfEven
  dsimp only
  split_ifs <;> omega

theorem digitChar_isDigit {d : ℕ} (h : d < 10) :
    (Nat.digitChar d).isDigit = true := by
  interval_cases d <;> rfl

theorem pad3_length (k : ℕ) : (pad3 k).length = 3 := rfl

theorem pad3_digits (k : ℕ) : ∀ c ∈ (pad3 k).data, c.isDigit := by
  intro c hc
  simp only [pad3, List.mem_cons, List.not_mem_nil, or_false] at hc
  rcases hc with h | h | h <;> rw [h] <;>
    exact digitChar_isDigit (Nat.mod_lt _ (by norm_num))

theorem pyFormatFixed3_threeDecimals {q : ℚ} (h : 0 ≤ q) :
    threeDecimals (pyFormatFixed3 q) := by
  have h0 : ¬ roundHalfEven (q * 1000) < 0 :=
    not_lt.mpr (roundHalfEven_nonneg (by positivity))
  refine ⟨Nat.repr ((roundHalfEven (q * 1000)).toNat / 1000),
    pad3 ((roundHalfEven (q * 1000)).toNat % 1000), ?_, pad3_length _,
    pad3_digits _⟩
  simp only [pyFormatFixed3]
  rw [if_neg h0]

theorem epochLine_shape (e epochs : ℕ) (r : EpochReport)
    (h1 : 0 ≤ r.trainLoss) (h2 : 0 ≤ r.testLoss) (h3 : 0 ≤ r.testAcc) :
    isReportLine (epochLine e epochs r) := by
  refine ⟨toString (e + 1), toString epochs, pyFormatFixed3 r.trainLoss,
    pyFormatFixed3 r.testLoss, pyFormatFixed3 r.testAcc, ?_,
    pyFormatFixed3_threeDecimals h1, pyFormatFixed3_threeDecimals h2,
    pyFormatFixed3_threeDecimals h3⟩
  have m1 : ("..  Training Loss: " : String) =
      ".. " ++ " " ++ "Training Loss: " := by decide
  have m2 : ("..  Test Loss: " : String) =
      ".. " ++ " " ++ "Test Loss: " := by decide
  have m3 : ("..  Test Accuracy: " : String) =
      ".. " ++ " " ++ "Test Accuracy: " := by decide
  rw [m1, m2, m3]
  simp only [epochLine, string_append_assoc]

theorem isReportLine_head {s : String} (h : isReportLine s) :
    s.data.head? = some 'E' := by
  obtain ⟨a, b, f1, f2, f3, heq, -, -, -⟩ := h
  have hE : ("Epoch: " : String).data =
      'E' :: ('p' :: 'o' :: 'c' :: 'h' :: ':' :: ' ' :: []) := rfl
  subst heq
  simp [String.data_append, hE, List.append_assoc, List.cons_append]

/-! ## Claim theorems -/

/-- Claim C3: for every batch, the accuracy computed by the reporting
utility (mean over the batch of the indicator that the arg-max predicted
class equals the true label) lies in `[0, 1]`; it equals `1` iff every
example's arg-max prediction matches its label, and equals `0` iff no
example's arg-max prediction matches its label. -/
theorem C3_batchAccuracy_bounds (logps : List (List ℚ)) (labels : List ℕ)
    (hne : logps ≠ []) (hlen : labels.length = logps.length) :
    0 ≤ batchAccuracy logps labels ∧ batchAccuracy logps labels ≤ 1 ∧
    (batchAccuracy logps labels = 1 ↔
      ∀ p ∈ (topClasses logps).zip labels, p.1 = p.2) ∧
    (batchAccuracy logps labels = 0 ↔
      ∀ p ∈ (topClasses logps).zip labels, p.1 ≠ p.2) := by
  have hn : 0 < logps.length := List.length_pos.mpr hne
  have hz : ((topClasses logps).zip labels).length = logps.length := by
    rw [List.length_zip, topClasses, List.length_map, hlen, min_self]
  have hm : matchCount (topClasses logps) labels =
      (((topClasses logps).zip labels).filter (fun p => p.1 == p.2)).length :=
    rfl
  have hmle : matchCount (topClasses logps) labels ≤ logps.length := by
    rw [hm, ← hz]
    exact List.length_filter_le _ _
  have hcast : (0 : ℚ) < (logps.length : ℚ) := by exact_mod_cast hn
  unfold batchAccuracy
  refine ⟨div_nonneg (Nat.cast_nonneg _) (Nat.cast_nonneg _), ?_, ?_, ?_⟩
  · rw [div_le_one hcast]
    exact_mod_cast hmle
  · rw [div_eq_one_iff_eq (ne_of_gt hcast), Nat.cast_inj, hm, ← hz,
      List.filter_length_eq_length]
    simp
  · rw [div_eq_zero_iff, or_iff_left (ne_of_gt hcast), Nat.cast_eq_zero,
      hm, List.length_eq_zero, List.filter_eq_nil_iff]
    simp

/-- Witness for C3 at a concrete batch. -/
theorem C3_batchAccuracy_bounds_witness :
    0 ≤ batchAccuracy [[0, 1], [0, 1]] [1, 1] ∧
    batchAccuracy [[0, 1], [0, 1]] [1, 1] ≤ 1 ∧
    (batchAccuracy [[0, 1], [0, 1]] [1, 1] = 1 ↔
      ∀ p ∈ (topClasses [[0, 1], [0, 1]]).zip [1, 1], p.1 = p.2) ∧
    (batchAccuracy [[0, 1], [0, 1]] [1, 1] = 0 ↔
      ∀ p ∈ (topClasses [[0, 1], [0, 1]]).zip [1, 1], p.1 ≠ p.2) :=
  C3_batchAccuracy_bounds [[0, 1], [0, 1]] [1, 1] (by simp) (by simp)

/-! ## Accuracy over a partitioned held-out set (for C4) -/

/-- The validation accuracy the loop reports: unweighted average of the
per-batch accuracies (`accuracy/len(testloader)`). -/
def loopAccuracy (bs : List (List (List ℚ) × List ℕ)) : ℚ :=
  (bs.map fun b => batchAccuracy b.1 b.2).sum / (bs.length : ℚ)

/-- Total number of correct predictions over all batches. -/
def totalCorrect (bs : List (List (List ℚ) × List ℕ)) : ℕ :=
  (bs.map fun b => matchCount (topClasses b.1) b.2).sum

/-- Total number of examples over all batches. -/
def totalExamples (bs : List (List (List ℚ) × List ℕ)) : ℕ :=
  (bs.map fun b => b.1.length).sum

/-- The true overall accuracy: total correct / total examples. -/
def overallAccuracy (bs : List (List (List ℚ) × List ℕ)) : ℚ :=
  (totalCorrect bs : ℚ) / (totalExamples bs : ℚ)

theorem sum_batchAccuracy_eq {bs : List (List (List ℚ) × List ℕ)} {k : ℕ}
    (hsz : ∀ b ∈ bs, b.1.length = k) :
    (bs.map fun b => batchAccuracy b.1 b.2).sum =
      (totalCorrect bs : ℚ) / (k : ℚ) := by
  induction bs with
  | nil => simp [totalCorrect]
  | cons b tl ih =>
    have hb : b.1.length = k := hsz b (List.mem_cons_self _ _)
    have htl := ih fun x hx => hsz x (List.mem_cons_of_mem _ hx)
    have hhead : batchAccuracy b.1 b.2 =
        (matchCount (topClasses b.1) b.2 : ℚ) / (k : ℚ) := by
      unfold batchAccuracy
      rw [hb]
    have hTC : totalCorrect (b :: tl) =
        matchCount (topClasses b.1) b.2 + totalCorrect tl := by
      simp [totalCorrect]
    rw [List.map_cons, List.sum_cons, hhead, htl, hTC]
    push_cast
    rw [add_div]

theorem totalExamples_eq {bs : List (List (List ℚ) × List ℕ)} {k : ℕ}
    (hsz : ∀ b ∈ bs, b.1.length = k) :
    totalExamples bs = bs.length * k := by
  induction bs with
  | nil => simp [totalExamples]
  | cons b tl ih =>
    have hb : b.1.length = k := hsz b (List.mem_cons_self _ _)
    have htl := ih fun x hx => hsz x (List.mem_cons_of_mem _ hx)
    simp only [totalExamples, List.map_cons, List.sum_cons, List.length_cons]
    simp only [totalExamples] at htl
    rw [hb, htl]
    ring

/-- Claim C4: when every batch has the same positive size, the unweighted
average of per-batch accuracies reported by the loop equals total
correct predictions over total examples; and there is a partition with
a shorter final batch on which the two quantities differ. -/
theorem C4_loopAccuracy_vs_overallAccuracy :
    (∀ (bs : List (List (List ℚ) × List ℕ)) (k : ℕ), 0 < k → bs ≠ [] →
      (∀ b ∈ bs, b.1.length = k) → loopAccuracy bs = overallAccuracy bs) ∧
    (∃ b1 b2 : List (List ℚ) × List ℕ, b2.1.length < b1.1.length ∧
      loopAccuracy [b1, b2] ≠ overallAccuracy [b1, b2]) := by
  constructor
  · intro bs k hk hne hsz
    have hkq : (k : ℚ) ≠ 0 := Nat.cast_ne_zero.mpr hk.ne'
    have hBq : ((bs.length : ℕ) : ℚ) ≠ 0 :=
      Nat.cast_ne_zero.mpr (List.length_pos.mpr hne).ne'
    unfold loopAccuracy overallAccuracy
    rw [sum_batchAccuracy_eq hsz, totalExamples_eq hsz]
    push_cast
    rw [div_div, mul_comm]
  · refine ⟨([[0, 1], [0, 1]], [1, 1]), ([[1, 0]], [1]), by simp, ?_⟩
    norm_num [loopAccuracy, overallAccuracy, totalCorrect, totalExamples,
      batchAccuracy, matchCount, topClasses, argmaxIdx, listMax]

/-- Claim C7: for every example (row of log-probabilities), the predicted
class computed by the reporting utility — arg-max over the exponentiated
log-probabilities, via `torch.exp` then `topk(1, dim=1)` — equals the
arg-max index of the log-probabilities themselves. -/
theorem C7_argmax_exp_eq_argmax (row : List ℝ) :
    argmaxIdx (row.map Real.exp) = argmaxIdx row :=
  argmaxIdx_map Real.exp_strictMono row

/-- Claim C5: the call `optimizer.zero_grad()` precedes `loss.backward()` in every
training step, so (given that clearing resets the additive accumulators
to a neutral value) the gradients present at `optimizer.step()` are
exactly the current batch's, and the whole step is independent of
whatever gradients were accumulated before it. -/
theorem C5_zero_grad_before_backward {P G : Type} (cfg : LoopCfg P G)
    (hzero : ∀ g, cfg.addG cfg.zeroG g = g) (s : TorchState P G)
    (b : Batch) :
    (trainStep cfg s b).1.grads = cfg.gradOf s.params b ∧
    (trainStep cfg s b).1.params =
      cfg.stepOpt s.params (cfg.gradOf s.params b) ∧
    ∀ g', trainStep cfg ⟨s.params, g', s.mode⟩ b = trainStep cfg s b := by
  refine ⟨?_, ?_, fun g' => ?_⟩ <;> simp [trainStep, hzero]

/-- A concrete optimizer/model instantiation (parameters and gradients
are single rationals, plain gradient-descent step) used to evaluate the
loop at concrete inputs. -/
def sgdCfg : LoopCfg ℚ ℚ where
  forward := fun _ _ => [[0, 1]]
  criterion := fun _ _ => 1
  gradOf := fun p _ => p
  addG := (· + ·)
  zeroG := 0
  stepOpt := fun p g => p - g

/-- Witness for C5 at a concrete configuration, state and batch. -/
theorem C5_zero_grad_before_backward_witness :
    (trainStep sgdCfg ⟨1, 5, Mode.train⟩ ⟨[[0]], [0]⟩).1.grads =
      sgdCfg.gradOf 1 ⟨[[0]], [0]⟩ ∧
    (trainStep sgdCfg ⟨1, 5, Mode.train⟩ ⟨[[0]], [0]⟩).1.params =
      sgdCfg.stepOpt 1 (sgdCfg.gradOf 1 ⟨[[0]], [0]⟩) ∧
    ∀ g', trainStep sgdCfg ⟨1, g', Mode.train⟩ ⟨[[0]], [0]⟩ =
      trainStep sgdCfg ⟨1, 5, Mode.train⟩ ⟨[[0]], [0]⟩ :=
  C5_zero_grad_before_backward sgdCfg (fun g => zero_add g)
    ⟨1, 5, Mode.train⟩ ⟨[[0]], [0]⟩

/-- Claim C6: the validation pass (run under `torch.no_grad()`, with no
optimizer call in its body) leaves the framework state untouched: after
an epoch the parameters equal their value immediately after the last
optimizer step of that epoch's training pass. -/
theorem C6_validation_preserves_params {P G : Type} (cfg : LoopCfg P G)
    (s : TorchState P G) (tB vB : List Batch) :
    (runEpoch cfg s tB vB).1.params = (trainPass cfg s 0 tB).1.params := by
  unfold runEpoch
  rw [valPass_state_eq]

/-- Claim C2: the metrics reported for an epoch are the mean per-batch
training loss, the mean per-batch validation loss and the mean per-batch
validation accuracy — each a sum of per-batch values divided by the
number of batches of the corresponding loader. -/
theorem C2_epoch_report_means {P G : Type} (cfg : LoopCfg P G)
    (s : TorchState P G) (tB vB : List Batch) :
    (runEpoch cfg s tB vB).2.1 =
      ⟨(trainPassLosses cfg s tB).sum / (tB.length : ℚ),
       (valLosses cfg (trainPass cfg s 0 tB).1.params vB).sum /
         (vB.length : ℚ),
       (valAccs cfg (trainPass cfg s 0 tB).1.params vB).sum /
         (vB.length : ℚ)⟩ := by
  unfold runEpoch
  dsimp only
  rw [trainPass_runningLoss, valPass_accumulators]
  simp

/-- Claim C9: whenever every per-batch training loss of an epoch is
non-negative (as with negative-log-likelihood loss) and the training
loader is non-empty, the reported mean training loss is a (finite,
since all arithmetic here is exact rational) non-negative number. -/
theorem C9_mean_training_loss_nonneg {P G : Type} (cfg : LoopCfg P G)
    (s : TorchState P G) (tB vB : List Batch) (_hne : tB ≠ [])
    (hpos : ∀ l ∈ trainPassLosses cfg s tB, 0 ≤ l) :
    0 ≤ (runEpoch cfg s tB vB).2.1.trainLoss := by
  unfold runEpoch
  dsimp only
  rw [trainPass_runningLoss]
  exact div_nonneg (by simpa using List.sum_nonneg hpos) (Nat.cast_nonneg _)

/-- Witness for C9 at a concrete run with one training batch. -/
theorem C9_mean_training_loss_nonneg_witness :
    ([(⟨[[0]], [0]⟩ : Batch)] ≠ []) ∧
    0 ≤ (runEpoch sgdCfg ⟨1, 0, Mode.train⟩ [⟨[[0]], [0]⟩] []).2.1.trainLoss :=
  ⟨by simp, C9_mean_training_loss_nonneg sgdCfg ⟨1, 0, Mode.train⟩
    [⟨[[0]], [0]⟩] [] (by simp)
    (by
      intro l hl
      simp only [trainPassLosses, trainStep, sgdCfg, List.mem_singleton]
        at hl
      rw [hl]
      norm_num)⟩

/-- Witness for C4's universal part: a two-batch partition with both
batches of size one. -/
theorem C4_loopAccuracy_vs_overallAccuracy_witness :
    loopAccuracy [([[0, 1]], [1]), ([[1, 0]], [0])] =
      overallAccuracy [([[0, 1]], [1]), ([[1, 0]], [0])] :=
  C4_loopAccuracy_vs_overallAccuracy.1 [([[0, 1]], [1]), ([[1, 0]], [0])] 1
    (by norm_num) (by simp)
    (by intro b hb; fin_cases hb <;> rfl)

/-- Any epoch line decomposes as the `Epoch: <e+1>/<E>` prefix followed
by the rest of the line. -/
theorem epochLine_decomp (e epochs : ℕ) (r : EpochReport) :
    ∃ rest, epochLine e epochs r =
      "Epoch: " ++ toString (e + 1) ++ "/" ++ toString epochs ++ rest := by
  refine ⟨".. " ++ " " ++ "Training Loss: " ++ pyFormatFixed3 r.trainLoss ++
    ".. " ++ " " ++ "Test Loss: " ++ pyFormatFixed3 r.testLoss ++
    ".. " ++ " " ++ "Test Accuracy: " ++ pyFormatFixed3 r.testAcc, ?_⟩
  simp only [epochLine, string_append_assoc]

/-- Claim C10: the loop prints one line per epoch, and the `i`-th line
(zero-based) reports the one-based epoch number `i + 1` out of
`epochs`; in particular the first line starts `Epoch: 1/E` and the last
`Epoch: E/E`. -/
theorem C10_one_based_epoch_numbering {P G : Type} (cfg : LoopCfg P G)
    (s : TorchState P G) (tB vB : List Batch) (epochs i : ℕ)
    (h : i < epochs) :
    ((runLoop cfg s tB vB epochs).2.1).length = epochs ∧
    ∃ rest, ((runLoop cfg s tB vB epochs).2.1).getD i "" =
      "Epoch: " ++ toString (i + 1) ++ "/" ++ toString epochs ++ rest := by
  refine ⟨loopFrom_length cfg tB vB epochs epochs s 0, ?_⟩
  obtain ⟨r, hr⟩ := loopFrom_line cfg tB vB epochs epochs s 0 i h
  rw [Nat.zero_add] at hr
  obtain ⟨rest, hrest⟩ := epochLine_decomp i epochs r
  exact ⟨rest, by rw [runLoop] at *; rw [hr, hrest]⟩

/-- Witness for C10: a two-epoch run at a concrete configuration. -/
theorem C10_one_based_epoch_numbering_witness :
    (0 < 2) ∧
    (((runLoop sgdCfg ⟨1, 0, Mode.train⟩ [] [] 2).2.1).length = 2 ∧
     ∃ rest, ((runLoop sgdCfg ⟨1, 0, Mode.train⟩ [] [] 2).2.1).getD 0 "" =
       "Epoch: " ++ toString (0 + 1) ++ "/" ++ toString 2 ++ rest) :=
  ⟨by norm_num,
   C10_one_based_epoch_numbering sgdCfg ⟨1, 0, Mode.train⟩ [] [] 2 0
     (by norm_num)⟩

/-- Claim C1 fails on cell 12 of Part 5: the cell never calls
`model.eval()` or `model.train()` (its only guard is `torch.no_grad()`),
even though the notebook's own text directly above it prescribes exactly
that pattern for a model with dropout.  Evaluating the embedded loop on
a concrete run (one epoch, one training batch, one validation batch)
shows a validation forward pass executing with the model still in
training mode — dropout active — and indeed every forward pass of the
run stays in training mode. -/
theorem C1_validation_forward_in_training_mode :
    ForwardEvent.mk Phase.validation Mode.train ∈
      (runLoop sgdCfg (initState sgdCfg 1) [⟨[[0]], [0]⟩]
        [⟨[[0]], [0]⟩] 1).2.2 ∧
    ∀ ev ∈ (runLoop sgdCfg (initState sgdCfg 1) [⟨[[0]], [0]⟩]
        [⟨[[0]], [0]⟩] 1).2.2, ev.mode = Mode.train := by
  constructor
  · simp [runLoop, loopFrom, runEpoch, trainPass, valPass, trainStep,
      valStep, initState]
  · intro ev hev
    simp only [runLoop, loopFrom, runEpoch, trainPass, valPass, trainStep,
      valStep, initState, List.mem_cons, List.append_nil, List.cons_append,
      List.nil_append, List.not_mem_nil, or_false] at hev
    rcases hev with h | h <;> rw [h]

/-- Every line the loop ever outputs is an epoch-report line. -/
theorem loopFrom_mem_lines {P G : Type} (cfg : LoopCfg P G)
    (tB vB : List Batch) (epochs n : ℕ) (s : TorchState P G) (e : ℕ)
    (line : String) (h : line ∈ (loopFrom cfg tB vB epochs s e n).2.1) :
    ∃ j r, line = epochLine j epochs r := by
  induction n generalizing s e with
  | zero => simp [loopFrom] at h
  | succ m ih =>
    simp only [loopFrom, List.mem_cons] at h
    rcases h with h | h
    · exact ⟨e, (runEpoch cfg s tB vB).2.1, h⟩
    · exact ih _ _ h

/-- Claim C8, amended: every line printed by the Part 5
training/validation loop is an epoch-report line, and every epoch-report
line with non-negative metric values has the shape
`Epoch: <e>/<E>..  Training Loss: <f>..  Test Loss: <f>..  Test Accuracy: <f>`
with all three metric fields formatted to three decimal places.  (The
Part 3 training loop prints `Training loss: <f>` lines instead — see the
accompanying counterexample.) -/
theorem C8_report_line_format :
    (∀ {P G : Type} (cfg : LoopCfg P G) (s : TorchState P G)
      (tB vB : List Batch) (epochs : ℕ) (line : String),
      line ∈ (runLoop cfg s tB vB epochs).2.1 →
      ∃ e r, line = epochLine e epochs r) ∧
    (∀ (e epochs : ℕ) (r : EpochReport), 0 ≤ r.trainLoss →
      0 ≤ r.testLoss → 0 ≤ r.testAcc →
      isReportLine (epochLine e epochs r)) :=
  ⟨fun cfg s tB vB epochs line h =>
    loopFrom_mem_lines cfg tB vB epochs epochs s 0 line h,
   fun _ _ _ h1 h2 h3 => epochLine_shape _ _ _ h1 h2 h3⟩

/-- Counterexample to C8 as stated: the per-epoch line of the Part 3
solution cell (shown here at the training loss the notebook actually
recorded for its first epoch) does not have the claimed
`Epoch: ...` shape. -/
theorem C8_part3_line_not_report_shaped :
    ¬ isReportLine (part3Line "1.8820699518169168") := by
  intro h
  have h1 := isReportLine_head h
  have h2 : (part3Line "1.8820699518169168").data.head? = some 'T' := rfl
  rw [h2] at h1
  exact absurd h1 (by decide)

/-- Witness for C8's amended statement at a concrete run and a concrete
report. -/
theorem C8_report_line_format_witness :
    ∃ line ∈ (runLoop sgdCfg ⟨1, 0, Mode.train⟩ [] [] 1).2.1,
      (∃ e r, line = epochLine e 1 r) ∧
      isReportLine (epochLine 0 2 ⟨0, 0, 0⟩) := by
  refine ⟨epochLine 0 1 ⟨0, 0, 0⟩, ?_, C8_report_line_format.1 sgdCfg
    ⟨1, 0, Mode.train⟩ [] [] 1 (epochLine 0 1 ⟨0, 0, 0⟩) ?_,
    C8_report_line_format.2 0 2 ⟨0, 0, 0⟩ le_rfl le_rfl le_rfl⟩ <;>
  simp [runLoop, loopFrom, runEpoch, trainPass, valPass]

end DLNano
